import Mathlib

/-!
Shallow embedding of the chacra `Binary` model
(src/chacra/models/binaries.py).

An Artifact Record (`Binary`) carries a name, project, optional path and
metadata fields, automatic `created` / `modified` timestamps, a `checksum`
derived from the file at `path`, and a reference to a Grouping Record
(`Repo`) resolved by find-or-create at construction time.

Modelling conventions:
  - Python attributes that the source may find entirely unset (its
    `try: target.path / except AttributeError` branch) are modelled with
    `Attr`: `Attr.unset` is the AttributeError case, `Attr.val v` a value
    that was assigned (possibly `None`, modelled as `Option`).
  - Timestamps are `Nat`; `datetime.datetime.utcnow()` becomes an explicit
    `now` argument threaded to the operations that call it.
  - File contents are `List Nat` (byte sequences); the filesystem is a
    function `String → Option (List Nat)`, where `none` means the file at
    that path cannot be opened or fully read (IOError at `open` or
    mid-stream).
  - The incremental SHA-512 object from `hashlib` is modelled by its
    accumulated byte stream (`update` appends a chunk) together with an
    abstract hex-digest function `h : List Nat → String` that the theorems
    quantify over; `hexdigest` depends only on the accumulated bytes.
-/

set_option autoImplicit false

namespace Chacra

/-- A Python attribute slot: either never assigned (accessing it raises
AttributeError) or assigned some value. -/
inductive Attr (α : Type) where
  | unset : Attr α
  | val : α → Attr α
deriving DecidableEq, Repr

/-- A JSON payload value as accepted for the allow-listed keys: a string
field value (possibly null) or an integer (for `size`). -/
inductive Val where
  | vstr : Option String → Val
  | vnat : Nat → Val
deriving DecidableEq, Repr

/-- Modelled from the spec: the Grouping Record (`Repo`, from
`chacra.models.repos`, whose source is not part of the excerpt). Its
attributes are a project reference, `ref`, `distro` and `distro_version`;
its constructor `Repo(project, ref, distro, distro_version)` stores them. -/
structure Repo where
  project : String
  ref : Option String
  distro : Option String
  distro_version : Option String
deriving DecidableEq, Repr

/-- The `Binary` record: one row of the `binaries` table. String columns
are `Option String` (nullable in Python until assigned), `size` defaults
to 0, `signed` to false. Only `path` uses `Attr`, because only `path` is
read through the AttributeError-guarded access in `generate_checksum`. -/
structure Binary where
  name : String
  project : String
  path : Attr (Option String) := Attr.unset
  ref : Option String := none
  distro : Option String := none
  distro_version : Option String := none
  arch : Option String := none
  built_by : Option String := none
  size : Nat := 0
  created : Nat
  modified : Nat
  signed : Bool := false
  checksum : Option String := none
  repo : Option Repo := none
deriving DecidableEq, Repr

/-- The allow-list `Binary.allowed_keys` from the source. -/
def Binary.allowed_keys : List String :=
  ["path", "distro", "distro_version", "arch", "ref", "built_by", "size"]

/-- Python `setattr(self, key, value)` restricted to the seven columns the
source ever assigns this way. The embedding is typed, so a value whose
shape does not match the column (for example an integer for `path`) leaves
the record unchanged; the theorems only exercise schema-typed payloads. -/
def setattr (b : Binary) (key : String) (v : Val) : Binary :=
  if key = "path" then
    match v with
    | Val.vstr s => { b with path := Attr.val s }
    | _ => b
  else if key = "distro" then
    match v with
    | Val.vstr s => { b with distro := s }
    | _ => b
  else if key = "distro_version" then
    match v with
    | Val.vstr s => { b with distro_version := s }
    | _ => b
  else if key = "arch" then
    match v with
    | Val.vstr s => { b with arch := s }
    | _ => b
  else if key = "ref" then
    match v with
    | Val.vstr s => { b with ref := s }
    | _ => b
  else if key = "built_by" then
    match v with
    | Val.vstr s => { b with built_by := s }
    | _ => b
  else if key = "size" then
    match v with
    | Val.vnat n => { b with size := n }
    | _ => b
  else b

/-- One iteration of the shared loop
`for key in self.allowed_keys: if key in data.keys(): setattr(self, key, data[key])`
used by both `Binary.__init__` and `Binary.update_from_json`. The payload
dict is a key-value list looked up by key. -/
def applyKey (data : List (String × Val)) (b : Binary) (key : String) : Binary :=
  match data.lookup key with
  | some v => setattr b key v
  | none => b

/-- `Binary.update_from_json`: apply the allow-listed keys present in the
payload onto the record. -/
def update_from_json (b : Binary) (data : List (String × Val)) : Binary :=
  Binary.allowed_keys.foldl (applyKey data) b

/-- The filter predicate of `Repo.query.filter_by(ref=..., distro=...,
distro_version=..., project=...)`: exact equality on the four columns. -/
def repoQuery (b : Binary) (r : Repo) : Bool :=
  decide (r.ref = b.ref ∧ r.distro = b.distro ∧
    r.distro_version = b.distro_version ∧ r.project = b.project)

/-- `Binary._get_or_create_repo`: query the existing Grouping Records for
an exact match first (`.first()` takes the first hit) and return it,
otherwise construct a new `Repo(project, ref, distro, distro_version)`. -/
def get_or_create_repo (repos : List Repo) (b : Binary) : Repo :=
  match repos.find? (repoQuery b) with
  | some r => r
  | none =>
    { project := b.project, ref := b.ref, distro := b.distro,
      distro_version := b.distro_version }

/-- The field-setting part of `Binary.__init__`: store name and project,
set `created = modified = now`, then apply the allow-listed keyword
arguments. -/
def Binary.initFields (name project : String) (kw : List (String × Val))
    (now : Nat) : Binary :=
  Binary.allowed_keys.foldl (applyKey kw)
    { name := name, project := project, created := now, modified := now }

/-- `Binary.__init__(name, project, repo=None, **kw)`: apply the fields,
then `self.repo = repo or self._get_or_create_repo()` — a falsy `repo`
argument (None) falls through to grouping resolution over the existing
Grouping Records `repos`. -/
def Binary.init (repos : List Repo) (name project : String)
    (repoArg : Option Repo) (kw : List (String × Val)) (now : Nat) : Binary :=
  let b := Binary.initFields name project kw now
  { b with
    repo := some (match repoArg with
      | some r => r
      | none => get_or_create_repo repos b) }

/-- The chunked read loop `iter(lambda: f.read(4096), "")`: split the file
content into successive chunks of at most 4096 bytes, stopping at the
empty read. The fuel argument is a termination device only: it starts at
the content length and strictly dominates it throughout, so the zero-fuel
branch is never taken on a nonempty rest. -/
def readChunksGo : Nat → List Nat → List (List Nat)
  | _, [] => []
  | 0, _ => []
  | Nat.succ fuel, l => l.take 4096 :: readChunksGo fuel (l.drop 4096)

/-- All chunks produced by reading the given content 4096 bytes at a
time. -/
def readChunks (content : List Nat) : List (List Nat) :=
  readChunksGo content.length content

/-- `hashlib` digest state transition: `chsum.update(chunk)` appends the
chunk to the byte stream absorbed so far. -/
def sha512_update (state chunk : List Nat) : List Nat := state ++ chunk

/-- Checksum-derivation error: the file at `path` could not be opened or
read (Python IOError). -/
inductive HookErr where
  | ioError : HookErr
deriving DecidableEq, Repr

/-- The `generate_checksum` listener. Reading `target.path` on a record
that never had the attribute assigned raises AttributeError: then set
`checksum = None` and return. A falsy path (None or the empty string) is
skipped silently, leaving `checksum` untouched. Otherwise stream the file
at `path` in 4096-byte chunks through an incremental SHA-512 and store the
hex digest; a file that cannot be opened or read raises IOError. -/
def generate_checksum (h : List Nat → String) (fs : String → Option (List Nat))
    (b : Binary) : Except HookErr Binary :=
  match b.path with
  | Attr.unset => Except.ok { b with checksum := none }
  | Attr.val none => Except.ok b
  | Attr.val (some s) =>
    if s = "" then Except.ok b
    else
      match fs s with
      | none => Except.error HookErr.ioError
      | some content =>
        Except.ok
          { b with
            checksum := some (h ((readChunks content).foldl sha512_update [])) }

/-- The `update_timestamp` listener: `target.modified = utcnow()`. -/
def update_timestamp (now : Nat) (b : Binary) : Binary :=
  { b with modified := now }

/-- The listener pipeline registered for both `before_insert` and
`before_update`: `generate_checksum` first, then `update_timestamp`
(registration order at the bottom of the source file). -/
def before_write (h : List Nat → String) (fs : String → Option (List Nat))
    (now : Nat) (b : Binary) : Except HookErr Binary :=
  match generate_checksum h fs b with
  | Except.error e => Except.error e
  | Except.ok b2 => Except.ok (update_timestamp now b2)

/-- The NOT NULL constraints of the column declarations
(`distro`, `distro_version`, `arch` are `nullable=False`; `name` is too,
but the embedding makes it a mandatory `String` already). An empty string
is not NULL and satisfies the constraint. -/
def schemaOk (b : Binary) : Bool :=
  b.distro.isSome && b.distro_version.isSome && b.arch.isSome

/-- Write-time failure: a listener raised, or the INSERT/UPDATE violated a
NOT NULL column constraint. -/
inductive WriteErr where
  | hookFailed : HookErr → WriteErr
  | notNullViolation : WriteErr
deriving DecidableEq, Repr

/-- The persisted state: the Grouping Records and the Artifact Records. -/
structure DB where
  repos : List Repo
  binaries : List Binary
deriving DecidableEq, Repr

/-- Modelled from the spec: a new Grouping Record is persisted together
with the Artifact Record in the same write; an already-persisted one is
reused as-is. -/
def saveRepo (repos : List Repo) : Option Repo → List Repo
  | none => repos
  | some r => if r ∈ repos then repos else repos ++ [r]

/-- Modelled from the spec: the persistence layer flush of a new record.
The `before_insert` listeners run inside the same transaction as the
INSERT, so a listener failure or a schema violation aborts the whole
write and nothing becomes visible; on success the record (with its
derived fields) and any new Grouping Record are persisted. -/
def insertBinary (h : List Nat → String) (fs : String → Option (List Nat))
    (now : Nat) (db : DB) (b : Binary) : Except WriteErr DB :=
  match before_write h fs now b with
  | Except.error e => Except.error (WriteErr.hookFailed e)
  | Except.ok b2 =>
    if schemaOk b2 then
      Except.ok
        { repos := saveRepo db.repos b2.repo,
          binaries := db.binaries ++ [b2] }
    else Except.error WriteErr.notNullViolation

/-- Modelled from the spec: the persistence layer flush of a mutated
record stored at position `i`. The `before_update` listeners run inside
the same transaction as the UPDATE; any failure aborts the write and the
previously visible row is untouched. -/
def updateBinary (h : List Nat → String) (fs : String → Option (List Nat))
    (now : Nat) (db : DB) (i : Nat) (b : Binary) : Except WriteErr DB :=
  match before_write h fs now b with
  | Except.error e => Except.error (WriteErr.hookFailed e)
  | Except.ok b2 =>
    if schemaOk b2 then
      Except.ok { db with binaries := db.binaries.set i b2 }
    else Except.error WriteErr.notNullViolation

/-- Merge of one payload entry into the `path` slot as the spec describes
UpdateFromPayload: apply the key when present (with a string value), keep
the current value otherwise. -/
def mergePath (cur : Attr (Option String)) : Option Val → Attr (Option String)
  | some (Val.vstr s) => Attr.val s
  | _ => cur

/-- Merge of one payload entry into a nullable string column. -/
def mergeStr (cur : Option String) : Option Val → Option String
  | some (Val.vstr s) => s
  | _ => cur

/-- Merge of one payload entry into the integer `size` column. -/
def mergeNat (cur : Nat) : Option Val → Nat
  | some (Val.vnat n) => n
  | _ => cur

/-- The UpdateFromPayload contract as the spec words it: exactly the
allow-listed keys present in the payload are applied onto the record;
every other field — name, project, grouping, checksum, signed, created,
modified — is left untouched, and unrecognized keys are ignored. -/
def updateFromPayloadSpec (b : Binary) (data : List (String × Val)) : Binary :=
  { b with
    path := mergePath b.path (data.lookup "path"),
    distro := mergeStr b.distro (data.lookup "distro"),
    distro_version := mergeStr b.distro_version (data.lookup "distro_version"),
    arch := mergeStr b.arch (data.lookup "arch"),
    ref := mergeStr b.ref (data.lookup "ref"),
    built_by := mergeStr b.built_by (data.lookup "built_by"),
    size := mergeNat b.size (data.lookup "size") }

/-! Helper lemmas. -/

theorem applyKey_path (data : List (String × Val)) (b : Binary) :
    applyKey data b "path" =
      { b with path := mergePath b.path (data.lookup "path") } := by
  unfold applyKey
  cases data.lookup "path" with
  | none => rfl
  | some v => cases v <;> rfl

theorem applyKey_distro (data : List (String × Val)) (b : Binary) :
    applyKey data b "distro" =
      { b with distro := mergeStr b.distro (data.lookup "distro") } := by
  unfold applyKey
  cases data.lookup "distro" with
  | none => rfl
  | some v => cases v <;> rfl

theorem applyKey_distro_version (data : List (String × Val)) (b : Binary) :
    applyKey data b "distro_version" =
      { b with distro_version :=
          mergeStr b.distro_version (data.lookup "distro_version") } := by
  unfold applyKey
  cases data.lookup "distro_version" with
  | none => rfl
  | some v => cases v <;> rfl

theorem applyKey_arch (data : List (String × Val)) (b : Binary) :
    applyKey data b "arch" =
      { b with arch := mergeStr b.arch (data.lookup "arch") } := by
  unfold applyKey
  cases data.lookup "arch" with
  | none => rfl
  | some v => cases v <;> rfl

theorem applyKey_ref (data : List (String × Val)) (b : Binary) :
    applyKey data b "ref" =
      { b with ref := mergeStr b.ref (data.lookup "ref") } := by
  unfold applyKey
  cases data.lookup "ref" with
  | none => rfl
  | some v => cases v <;> rfl

theorem applyKey_built_by (data : List (String × Val)) (b : Binary) :
    applyKey data b "built_by" =
      { b with built_by := mergeStr b.built_by (data.lookup "built_by") } := by
  unfold applyKey
  cases data.lookup "built_by" with
  | none => rfl
  | some v => cases v <;> rfl

theorem applyKey_size (data : List (String × Val)) (b : Binary) :
    applyKey data b "size" =
      { b with size := mergeNat b.size (data.lookup "size") } := by
  unfold applyKey
  cases data.lookup "size" with
  | none => rfl
  | some v => cases v <;> rfl

theorem update_from_json_eq (b : Binary) (data : List (String × Val)) :
    update_from_json b data = updateFromPayloadSpec b data := by
  simp only [update_from_json, Binary.allowed_keys, List.foldl_cons, List.foldl_nil,
    applyKey_path, applyKey_distro, applyKey_distro_version, applyKey_arch,
    applyKey_ref, applyKey_built_by, applyKey_size]
  rfl

theorem readChunksGo_foldl (fuel : Nat) : ∀ (l acc : List Nat), l.length ≤ fuel →
    (readChunksGo fuel l).foldl sha512_update acc = acc ++ l := by
  induction fuel with
  | zero =>
    intro l acc hl
    have : l = [] := List.length_eq_zero.mp (Nat.le_zero.mp hl)
    subst this
    simp [readChunksGo]
  | succ fuel ih =>
    intro l acc hl
    cases l with
    | nil => simp [readChunksGo]
    | cons x xs =>
      have hstep : readChunksGo (fuel + 1) (x :: xs) =
          (x :: xs).take 4096 :: readChunksGo fuel ((x :: xs).drop 4096) := rfl
      have hlen : ((x :: xs).drop 4096).length ≤ fuel := by
        rw [List.length_drop]
        simp only [List.length_cons] at hl ⊢
        omega
      rw [hstep, List.foldl_cons, ih _ _ hlen]
      show sha512_update acc ((x :: xs).take 4096) ++ (x :: xs).drop 4096 =
        acc ++ (x :: xs)
      rw [sha512_update, List.append_assoc, List.take_append_drop]

theorem readChunks_foldl (content : List Nat) :
    (readChunks content).foldl sha512_update [] = content := by
  have h := readChunksGo_foldl content.length content [] (Nat.le_refl _)
  simpa [readChunks] using h

theorem generate_checksum_ok (h : List Nat → String)
    (fs : String → Option (List Nat)) (b b2 : Binary)
    (hw : generate_checksum h fs b = Except.ok b2) :
    b2 = { b with checksum := b2.checksum } := by
  cases hp : b.path with
  | unset =>
    simp only [generate_checksum, hp] at hw
    injection hw with h2
    subst h2
    rfl
  | val p =>
    cases p with
    | none =>
      simp only [generate_checksum, hp] at hw
      injection hw with h2
      subst h2
      rw [← hp]
    | some s =>
      by_cases hs : s = ""
      · simp only [generate_checksum, hp, if_pos hs] at hw
        injection hw with h2
        subst h2
        rw [← hp]
      · cases hfs : fs s with
        | none =>
          simp only [generate_checksum, hp, if_neg hs, hfs] at hw
          exact Except.noConfusion hw
        | some content =>
          simp only [generate_checksum, hp, if_neg hs, hfs] at hw
          injection hw with h2
          subst h2
          rfl

theorem before_write_ok (h : List Nat → String)
    (fs : String → Option (List Nat)) (now : Nat) (b b2 : Binary)
    (hw : before_write h fs now b = Except.ok b2) :
    b2 = { b with checksum := b2.checksum, modified := now } := by
  unfold before_write at hw
  cases hg : generate_checksum h fs b with
  | error e =>
    simp only [hg] at hw
    exact Except.noConfusion hw
  | ok bg =>
    simp only [hg] at hw
    have hb := generate_checksum_ok h fs b bg hg
    injection hw with h2
    subst h2
    rw [hb]
    rfl

theorem generate_checksum_reads (h : List Nat → String)
    (fs : String → Option (List Nat)) (b : Binary) (s : String)
    (content : List Nat) (hpath : b.path = Attr.val (some s)) (hs : s ≠ "")
    (hfs : fs s = some content) :
    generate_checksum h fs b = Except.ok { b with checksum := some (h content) } := by
  simp only [generate_checksum, hpath, if_neg hs, hfs, readChunks_foldl]

theorem before_write_reads (h : List Nat → String)
    (fs : String → Option (List Nat)) (t : Nat) (b : Binary) (s : String)
    (content : List Nat) (hpath : b.path = Attr.val (some s)) (hs : s ≠ "")
    (hfs : fs s = some content) :
    before_write h fs t b =
      Except.ok { b with checksum := some (h content), modified := t } := by
  unfold before_write
  rw [generate_checksum_reads h fs b s content hpath hs hfs]
  rfl

theorem initFields_spec (name project : String) (kw : List (String × Val))
    (now : Nat) :
    Binary.initFields name project kw now =
      updateFromPayloadSpec
        { name := name, project := project, created := now, modified := now }
        kw :=
  update_from_json_eq _ kw

theorem initFields_project (name project : String) (kw : List (String × Val))
    (now : Nat) :
    (Binary.initFields name project kw now).project = project := by
  rw [initFields_spec]
  rfl

theorem init_timestamps (repos : List Repo) (name project : String)
    (repoArg : Option Repo) (kw : List (String × Val)) (t0 : Nat) :
    (Binary.init repos name project repoArg kw t0).created = t0 ∧
    (Binary.init repos name project repoArg kw t0).modified = t0 := by
  constructor
  · show (Binary.initFields name project kw t0).created = t0
    rw [initFields_spec]
    rfl
  · show (Binary.initFields name project kw t0).modified = t0
    rw [initFields_spec]
    rfl

/-! Shared concrete instances used by the witness theorems. -/

/-- A stand-in hex-digest function (the theorems hold for every digest
function, SHA-512 included). -/
def hashZero : List Nat → String := fun _ => ""

/-- A filesystem on which no path is readable. -/
def fsNone : String → Option (List Nat) := fun _ => none

/-- A filesystem with a single two-byte file at path `f`. -/
def fsDemo : String → Option (List Nat) :=
  fun p => if p = "f" then some [104, 105] else none

/-- A digest function that renders the length of the absorbed bytes. -/
def hashDemo : List Nat → String := fun l => toString l.length

/-- The empty persisted state. -/
def dbEmpty : DB := { repos := [], binaries := [] }

/-- The record produced by `before_write hashDemo fsDemo 1` on a fresh
binary whose path is the demo file. -/
def bC1res : Binary :=
  { name := "n", project := "p", path := Attr.val (some "f"), ref := none,
    distro := none, distro_version := none, arch := none, built_by := none,
    size := 0, created := 0, modified := 1, signed := false,
    checksum := some "2",
    repo := some { project := "p", ref := none, distro := none,
                   distro_version := none } }

/-- C1: for every Artifact Record whose path is set and non-empty, after
any completed write (the insert and update listener pipelines are the
same `before_write`), the checksum equals the hex digest of the exact
bytes of the file currently at that path; recomputing over the unchanged
file yields the same digest, and a record whose path was just changed by
a payload update is hashed from the new file, not the old one. -/
theorem C1_checksum_after_write (h : List Nat → String)
    (fs : String → Option (List Nat)) (t : Nat) (b : Binary) (s : String)
    (content : List Nat) (b2 : Binary)
    (hpath : b.path = Attr.val (some s)) (hs : s ≠ "")
    (hfs : fs s = some content)
    (hw : before_write h fs t b = Except.ok b2) :
    b2.checksum = some (h content) ∧
    (∀ t2 b3, before_write h fs t2 b2 = Except.ok b3 →
      b3.checksum = some (h content)) ∧
    (∀ bOld t3 b4,
      before_write h fs t3
          (update_from_json bOld [("path", Val.vstr (some s))]) =
        Except.ok b4 →
      b4.checksum = some (h content)) := by
  have hread := before_write_reads h fs t b s content hpath hs hfs
  rw [hread] at hw
  injection hw with h2
  subst h2
  refine ⟨rfl, ?_, ?_⟩
  · intro t2 b3 hw3
    have hpath2 :
        ({ b with checksum := some (h content), modified := t } : Binary).path =
          Attr.val (some s) := hpath
    have hread2 := before_write_reads h fs t2 _ s content hpath2 hs hfs
    rw [hread2] at hw3
    injection hw3 with h3
    subst h3
    rfl
  · intro bOld t3 b4 hw4
    have hpath4 :
        (update_from_json bOld [("path", Val.vstr (some s))]).path =
          Attr.val (some s) := by
      rw [update_from_json_eq]
      rfl
    have hread4 := before_write_reads h fs t3 _ s content hpath4 hs hfs
    rw [hread4] at hw4
    injection hw4 with h4
    subst h4
    rfl

/-- Witness for C1 at a concrete two-byte file. -/
theorem C1_checksum_after_write_witness :
    bC1res.checksum = some (hashDemo [104, 105]) :=
  (C1_checksum_after_write hashDemo fsDemo 1
    (Binary.init [] "n" "p" none [("path", Val.vstr (some "f"))] 0)
    "f" [104, 105] bC1res rfl (by decide) rfl rfl).1

/-- C2: `modified >= created` holds immediately after creation
(`__init__` sets both to the same instant) and is preserved by every
subsequent update (payload application followed by the listener pipeline
at any instant not earlier than `created`; the update never touches
`created`). -/
theorem C2_modified_ge_created (h : List Nat → String)
    (fs : String → Option (List Nat)) (repos : List Repo)
    (name project : String) (repoArg : Option Repo)
    (kw : List (String × Val)) (t0 : Nat) :
    (Binary.init repos name project repoArg kw t0).created ≤
      (Binary.init repos name project repoArg kw t0).modified ∧
    ∀ b data t b2, b.created ≤ t →
      before_write h fs t (update_from_json b data) = Except.ok b2 →
      b2.created = b.created ∧ b2.created ≤ b2.modified := by
  constructor
  · rw [(init_timestamps repos name project repoArg kw t0).1,
      (init_timestamps repos name project repoArg kw t0).2]
  · intro b data t b2 hle hw
    have hb2 := before_write_ok h fs t _ b2 hw
    have hcreated : b2.created = b.created := by
      rw [hb2]
      show (update_from_json b data).created = b.created
      rw [update_from_json_eq]
      rfl
    refine ⟨hcreated, ?_⟩
    have hmod : b2.modified = t := by rw [hb2]
    rw [hcreated, hmod]
    exact hle

/-- The record produced by updating a fresh binary (created at instant 3)
with an empty payload and flushing at instant 5. -/
def bC2res : Binary :=
  { name := "n", project := "p", path := Attr.unset, ref := none,
    distro := none, distro_version := none, arch := none, built_by := none,
    size := 0, created := 3, modified := 5, signed := false, checksum := none,
    repo := some { project := "p", ref := none, distro := none,
                   distro_version := none } }

/-- Witness for C2: creation at instant 3, one update flushed at
instant 5. -/
theorem C2_modified_ge_created_witness :
    ((Binary.init [] "n" "p" none [] 3).created ≤
      (Binary.init [] "n" "p" none [] 3).modified) ∧
    (bC2res.created = (Binary.init [] "n" "p" none [] 3).created ∧
      bC2res.created ≤ bC2res.modified) :=
  ⟨(C2_modified_ge_created hashZero fsNone [] "n" "p" none [] 3).1,
    (C2_modified_ge_created hashZero fsNone [] "n" "p" none [] 3).2
      (Binary.init [] "n" "p" none [] 3) [] 5 bC2res (by decide) (by rfl)⟩

/-- C3: when `__init__` receives no explicit grouping, resolution queries
the existing Grouping Records by exact equality on
(ref, distro, distro_version, project); the first match, when one exists,
is reused (it is already persisted, so persisting again adds nothing new),
otherwise exactly one new Grouping Record carrying
(project, ref, distro, distro_version) is constructed, assigned, and is
the single addition to the persisted Grouping Records. -/
theorem C3_grouping_resolution (repos : List Repo) (name project : String)
    (kw : List (String × Val)) (t : Nat) :
    (∀ r, repos.find? (repoQuery (Binary.initFields name project kw t)) =
        some r →
      (Binary.init repos name project none kw t).repo = some r ∧ r ∈ repos ∧
      saveRepo repos (Binary.init repos name project none kw t).repo =
        repos) ∧
    (repos.find? (repoQuery (Binary.initFields name project kw t)) = none →
      (Binary.init repos name project none kw t).repo =
        some { project := project,
               ref := (Binary.initFields name project kw t).ref,
               distro := (Binary.initFields name project kw t).distro,
               distro_version :=
                 (Binary.initFields name project kw t).distro_version } ∧
      saveRepo repos (Binary.init repos name project none kw t).repo =
        repos ++
          [{ project := project,
             ref := (Binary.initFields name project kw t).ref,
             distro := (Binary.initFields name project kw t).distro,
             distro_version :=
               (Binary.initFields name project kw t).distro_version }]) := by
  constructor
  · intro r hr
    have hrepo : (Binary.init repos name project none kw t).repo = some r := by
      show some (get_or_create_repo repos (Binary.initFields name project kw t)) =
        some r
      simp only [get_or_create_repo, hr]
    have hmem : r ∈ repos := List.mem_of_find?_eq_some hr
    refine ⟨hrepo, hmem, ?_⟩
    rw [hrepo]
    show (if r ∈ repos then repos else repos ++ [r]) = repos
    rw [if_pos hmem]
  · intro hr
    have hrepo : (Binary.init repos name project none kw t).repo =
        some { project := project,
               ref := (Binary.initFields name project kw t).ref,
               distro := (Binary.initFields name project kw t).distro,
               distro_version :=
                 (Binary.initFields name project kw t).distro_version } := by
      show some (get_or_create_repo repos (Binary.initFields name project kw t)) =
        _
      simp only [get_or_create_repo, hr]
      rw [initFields_project]
    refine ⟨hrepo, ?_⟩
    rw [hrepo]
    have hquery :
        repoQuery (Binary.initFields name project kw t)
          { project := project,
            ref := (Binary.initFields name project kw t).ref,
            distro := (Binary.initFields name project kw t).distro,
            distro_version :=
              (Binary.initFields name project kw t).distro_version } = true := by
      simp [repoQuery, initFields_project]
    have hnotmem :
        { project := project,
          ref := (Binary.initFields name project kw t).ref,
          distro := (Binary.initFields name project kw t).distro,
          distro_version :=
            (Binary.initFields name project kw t).distro_version } ∉ repos := by
      intro hmem
      exact absurd hquery
        (by simpa using List.find?_eq_none.mp hr _ hmem)
    show (if _ ∈ repos then repos else repos ++ [_]) = _
    rw [if_neg hnotmem]

/-- A Grouping Record matching a fresh binary of project `p` with no ref,
distro or distro version. -/
def r0c : Repo :=
  { project := "p", ref := none, distro := none, distro_version := none }

/-- Witness for C3: with `r0c` already persisted, a matching creation
reuses it and persists no new Grouping Record. -/
theorem C3_grouping_resolution_witness :
    (Binary.init [r0c] "n" "p" none [] 0).repo = some r0c ∧ r0c ∈ [r0c] ∧
    saveRepo [r0c] (Binary.init [r0c] "n" "p" none [] 0).repo = [r0c] :=
  (C3_grouping_resolution [r0c] "n" "p" [] 0).1 r0c (by rfl)

/-- C4 counterexample: a creation whose `distro` ends up as the empty
string completes successfully — the schema only rejects NULL, so the
claim that Create fails whenever a required field ends up empty is false.
The write succeeds with `distro` present but empty. -/
theorem C4_counterexample :
    (Binary.init [] "b" "p" none
      [("distro", Val.vstr (some "")), ("distro_version", Val.vstr (some "v")),
       ("arch", Val.vstr (some "a"))] 0).distro = some "" ∧
    (insertBinary hashZero fsNone 1 dbEmpty
      (Binary.init [] "b" "p" none
        [("distro", Val.vstr (some "")),
         ("distro_version", Val.vstr (some "v")),
         ("arch", Val.vstr (some "a"))] 0)).isOk = true := by
  constructor
  · rfl
  · rfl

/-- C4 amended: Create fails, with no partial write, whenever `distro`,
`distro_version` or `arch` is absent (NULL) after the allow-listed fields
are applied; an empty string satisfies the NOT NULL schema constraints
and is accepted. -/
theorem C4_required_fields_amended (h : List Nat → String)
    (fs : String → Option (List Nat)) (now : Nat) (db : DB) (b : Binary)
    (habs : b.distro = none ∨ b.distro_version = none ∨ b.arch = none) :
    (insertBinary h fs now db b).isOk = false := by
  unfold insertBinary
  cases hw : before_write h fs now b with
  | error e => rfl
  | ok b2 =>
    have hb2 := before_write_ok h fs now b b2 hw
    have hschema : schemaOk b2 = false := by
      rw [hb2]
      show schemaOk { b with checksum := b2.checksum, modified := now } = false
      rcases habs with h1 | h1 | h1 <;> simp [schemaOk, h1]
    simp only [hschema]
    rfl

/-- Witness for the amended C4: a record created with no `distro` at all
is rejected by the write. -/
theorem C4_required_fields_amended_witness :
    (insertBinary hashZero fsNone 1 dbEmpty
      (Binary.init [] "b" "p" none [] 0)).isOk = false :=
  C4_required_fields_amended hashZero fsNone 1 dbEmpty
    (Binary.init [] "b" "p" none [] 0) (Or.inl (by rfl))

/-- C5: when the file at a set, non-empty path cannot be opened or read,
checksum derivation raises IOError and the whole pending write — insert
or update — is aborted with that failure; no new state is produced, so no
record with a stale or missing checksum becomes visible. -/
theorem C5_unreadable_aborts_write (h : List Nat → String)
    (fs : String → Option (List Nat)) (now : Nat) (db : DB) (i : Nat)
    (b : Binary) (s : String)
    (hpath : b.path = Attr.val (some s)) (hs : s ≠ "") (hfs : fs s = none) :
    generate_checksum h fs b = Except.error HookErr.ioError ∧
    insertBinary h fs now db b =
      Except.error (WriteErr.hookFailed HookErr.ioError) ∧
    updateBinary h fs now db i b =
      Except.error (WriteErr.hookFailed HookErr.ioError) := by
  have hgc : generate_checksum h fs b = Except.error HookErr.ioError := by
    simp only [generate_checksum, hpath, if_neg hs, hfs]
  have hbw : before_write h fs now b = Except.error HookErr.ioError := by
    unfold before_write
    rw [hgc]
  refine ⟨hgc, ?_, ?_⟩
  · unfold insertBinary
    rw [hbw]
  · unfold updateBinary
    rw [hbw]

/-- Witness for C5: a fresh record pointing at an unreadable path fails
both write operations with the IOError. -/
theorem C5_unreadable_aborts_write_witness :
    generate_checksum hashZero fsNone
        (Binary.init [] "n" "p" none [("path", Val.vstr (some "f"))] 0) =
      Except.error HookErr.ioError ∧
    insertBinary hashZero fsNone 1 dbEmpty
        (Binary.init [] "n" "p" none [("path", Val.vstr (some "f"))] 0) =
      Except.error (WriteErr.hookFailed HookErr.ioError) ∧
    updateBinary hashZero fsNone 1 dbEmpty 0
        (Binary.init [] "n" "p" none [("path", Val.vstr (some "f"))] 0) =
      Except.error (WriteErr.hookFailed HookErr.ioError) :=
  C5_unreadable_aborts_write hashZero fsNone 1 dbEmpty 0
    (Binary.init [] "n" "p" none [("path", Val.vstr (some "f"))] 0)
    "f" rfl (by decide) rfl

/-- C6: a record whose path is set but falsy (None or the empty string)
passes checksum derivation untouched, so a write — insert or update — of
a schema-valid record succeeds and the stored record keeps its previous
checksum, only the modified timestamp being refreshed. -/
theorem C6_falsy_path_preserves_checksum (h : List Nat → String)
    (fs : String → Option (List Nat)) (now : Nat) (db : DB) (i : Nat)
    (b : Binary)
    (hpath : b.path = Attr.val none ∨ b.path = Attr.val (some ""))
    (hschema : schemaOk b = true) :
    generate_checksum h fs b = Except.ok b ∧
    (update_timestamp now b).checksum = b.checksum ∧
    insertBinary h fs now db b =
      Except.ok { repos := saveRepo db.repos b.repo,
                  binaries := db.binaries ++ [update_timestamp now b] } ∧
    updateBinary h fs now db i b =
      Except.ok
        { db with binaries := db.binaries.set i (update_timestamp now b) } := by
  have hgc : generate_checksum h fs b = Except.ok b := by
    rcases hpath with h1 | h1
    · simp only [generate_checksum, h1]
    · simp [generate_checksum, h1]
  have hbw : before_write h fs now b = Except.ok (update_timestamp now b) := by
    unfold before_write
    rw [hgc]
  have hschema2 : schemaOk (update_timestamp now b) = true := hschema
  refine ⟨hgc, rfl, ?_, ?_⟩
  · unfold insertBinary
    rw [hbw]
    simp only [hschema2]
    rfl
  · unfold updateBinary
    rw [hbw]
    simp only [hschema2]
    rfl

/-- A schema-valid record whose path is set to the empty string. -/
def bC6 : Binary :=
  Binary.init [] "b" "p" none
    [("path", Val.vstr (some "")), ("distro", Val.vstr (some "d")),
     ("distro_version", Val.vstr (some "v")), ("arch", Val.vstr (some "a"))] 0

/-- Witness for C6 on a record with an empty-string path. -/
theorem C6_falsy_path_preserves_checksum_witness :
    generate_checksum hashZero fsNone bC6 = Except.ok bC6 ∧
    (update_timestamp 1 bC6).checksum = bC6.checksum ∧
    insertBinary hashZero fsNone 1 dbEmpty bC6 =
      Except.ok { repos := saveRepo dbEmpty.repos bC6.repo,
                  binaries := dbEmpty.binaries ++ [update_timestamp 1 bC6] } ∧
    updateBinary hashZero fsNone 1 dbEmpty 0 bC6 =
      Except.ok
        { dbEmpty with
          binaries := dbEmpty.binaries.set 0 (update_timestamp 1 bC6) } :=
  C6_falsy_path_preserves_checksum hashZero fsNone 1 dbEmpty 0 bC6
    (Or.inr (by rfl)) (by rfl)

/-- C7: a record whose path attribute was never assigned at all (the
AttributeError branch, as opposed to a path set to an empty value) has its
checksum set to null by checksum derivation, without error; a record
created without a `path` key has an unset path, so its checksum is null
after the creation pipeline. -/
theorem C7_unset_path_null_checksum (h : List Nat → String)
    (fs : String → Option (List Nat)) (now : Nat) (repos : List Repo)
    (name project : String) (kw : List (String × Val)) (t : Nat) (b : Binary)
    (hpath : b.path = Attr.unset) (hkw : kw.lookup "path" = none) :
    generate_checksum h fs b = Except.ok { b with checksum := none } ∧
    (∀ b2, before_write h fs now b = Except.ok b2 → b2.checksum = none) ∧
    (Binary.init repos name project none kw t).path = Attr.unset ∧
    (∀ b2, before_write h fs now (Binary.init repos name project none kw t) =
        Except.ok b2 → b2.checksum = none) := by
  have key : ∀ b0 : Binary, b0.path = Attr.unset →
      generate_checksum h fs b0 = Except.ok { b0 with checksum := none } := by
    intro b0 hp
    simp only [generate_checksum, hp]
  have key2 : ∀ b0 : Binary, b0.path = Attr.unset →
      ∀ b2, before_write h fs now b0 = Except.ok b2 → b2.checksum = none := by
    intro b0 hp b2 hw
    unfold before_write at hw
    rw [key b0 hp] at hw
    injection hw with h2
    subst h2
    rfl
  have hinit : (Binary.init repos name project none kw t).path = Attr.unset := by
    show (Binary.initFields name project kw t).path = Attr.unset
    rw [initFields_spec]
    show mergePath Attr.unset (kw.lookup "path") = Attr.unset
    rw [hkw]
    rfl
  exact ⟨key b hpath, key2 b hpath, hinit, key2 _ hinit⟩

/-- Witness for C7: a record created with no `path` key. -/
theorem C7_unset_path_null_checksum_witness :
    generate_checksum hashZero fsNone (Binary.init [] "n" "p" none [] 3) =
      Except.ok { Binary.init [] "n" "p" none [] 3 with checksum := none } ∧
    (Binary.init [] "n" "p" none [] 3).path = Attr.unset :=
  ⟨(C7_unset_path_null_checksum hashZero fsNone 5 [] "n" "p" [] 3
      (Binary.init [] "n" "p" none [] 3) rfl rfl).1,
    (C7_unset_path_null_checksum hashZero fsNone 5 [] "n" "p" [] 3
      (Binary.init [] "n" "p" none [] 3) rfl rfl).2.2.1⟩

/-- A schema-valid fresh record constructed at instant 0. -/
def bC8 : Binary :=
  Binary.init [] "b" "p" none
    [("distro", Val.vstr (some "d")), ("distro_version", Val.vstr (some "v")),
     ("arch", Val.vstr (some "a"))] 0

/-- C8 counterexample: a record constructed at instant 0 and flushed at
instant 1 is persisted with `created = 0` but `modified = 1` — the
insert pipeline refreshes `modified` with a fresh clock reading, so
`created` and `modified` are not equal after Create completes whenever
the clock advanced between construction and flush. -/
theorem C8_counterexample :
    (insertBinary hashZero fsNone 1 dbEmpty bC8).map
        (fun db => db.binaries.map (fun b2 => (b2.created, b2.modified))) =
      Except.ok [(0, 1)] ∧ (0 : Nat) ≠ 1 := by
  constructor
  · rfl
  · decide

/-- C8 amended: immediately after Create completes, `created` carries the
construction instant and `modified` the pipeline flush instant, so
`modified >= created`; the two are equal exactly when the pipeline runs
at the same clock instant as construction. -/
theorem C8_create_timestamps_amended (h : List Nat → String)
    (fs : String → Option (List Nat)) (repos : List Repo)
    (name project : String) (repoArg : Option Repo)
    (kw : List (String × Val)) (t0 t1 : Nat) (b2 : Binary) (hle : t0 ≤ t1)
    (hw : before_write h fs t1 (Binary.init repos name project repoArg kw t0) =
      Except.ok b2) :
    b2.created = t0 ∧ b2.modified = t1 ∧ b2.created ≤ b2.modified ∧
    (t1 = t0 → b2.created = b2.modified) := by
  have hb2 := before_write_ok h fs t1 _ b2 hw
  have hcreated : b2.created = t0 := by
    rw [hb2]
    show (Binary.init repos name project repoArg kw t0).created = t0
    exact (init_timestamps repos name project repoArg kw t0).1
  have hmod : b2.modified = t1 := by rw [hb2]
  refine ⟨hcreated, hmod, ?_, ?_⟩
  · rw [hcreated, hmod]
    exact hle
  · intro heq
    rw [hcreated, hmod, heq]

/-- The record persisted when construction and flush happen at the same
instant 2. -/
def bC8w : Binary :=
  { name := "n", project := "p", path := Attr.unset, ref := none,
    distro := none, distro_version := none, arch := none, built_by := none,
    size := 0, created := 2, modified := 2, signed := false, checksum := none,
    repo := some { project := "p", ref := none, distro := none,
                   distro_version := none } }

/-- Witness for the amended C8 at coinciding instants. -/
theorem C8_create_timestamps_amended_witness :
    bC8w.created = 2 ∧ bC8w.modified = 2 ∧ bC8w.created ≤ bC8w.modified ∧
    (2 = 2 → bC8w.created = bC8w.modified) :=
  C8_create_timestamps_amended hashZero fsNone [] "n" "p" none [] 2 2 bC8w
    (by decide) (by rfl)

/-- C9: UpdateFromPayload applies onto the record exactly the
allow-listed keys present in the payload — the result coincides with the
field-by-field merge over {path, distro, distro_version, arch, ref,
built_by, size} — and every other field, including name, project,
grouping, checksum, signed, created and modified, is left untouched;
grouping is never re-resolved by an update. -/
theorem C9_update_applies_allow_list (b : Binary)
    (data : List (String × Val)) :
    update_from_json b data = updateFromPayloadSpec b data ∧
    (update_from_json b data).name = b.name ∧
    (update_from_json b data).project = b.project ∧
    (update_from_json b data).repo = b.repo ∧
    (update_from_json b data).checksum = b.checksum ∧
    (update_from_json b data).signed = b.signed ∧
    (update_from_json b data).created = b.created ∧
    (update_from_json b data).modified = b.modified := by
  refine ⟨update_from_json_eq b data, ?_, ?_, ?_, ?_, ?_, ?_, ?_⟩ <;>
    · rw [update_from_json_eq b data]
      rfl

/-- C10: a grouping override that is supplied but falsy (None) is treated
exactly as no override: `repo or self._get_or_create_repo()` falls
through to grouping resolution, whose result is assigned, so no Artifact
Record ever leaves `__init__` with an absent grouping by this path. -/
theorem C10_falsy_override_resolves (repos : List Repo)
    (name project : String) (kw : List (String × Val)) (t : Nat) :
    (Binary.init repos name project none kw t).repo =
      some (get_or_create_repo repos (Binary.initFields name project kw t)) ∧
    (Binary.init repos name project none kw t).repo ≠ none := by
  refine ⟨rfl, ?_⟩
  intro h2
  exact Option.noConfusion h2

end Chacra
